import Mathlib

/-!
# Sourcetrail `Project` (src/lib/Project.cpp): incremental re-indexing run

A shallow embedding of `Project.cpp`.  The `Project` object, the two settings
singletons and a log of the calls made on the collaborators are an explicit
state (`World`); every member function of `Project` is a function on that state.

The collaborators (`ProjectSettings`, `ApplicationSettings`, `FileManager`,
`Storage`, `CxxParser`, the message bus) are not defined in `Project.cpp`.
Their behaviour is a parameter (`Collaborators`): arbitrary functions on
arbitrary state types, so every theorem holds for every behaviour they
can have.
-/

namespace Sourcetrail

/-! ## Data model -/

/-- The class `FilePath` (declared in another header): modelled by its path text. -/
abbrev FilePath := String

/-- The strict order `std::set<FilePath>` keeps its elements in: the
lexicographic order of the path text. -/
def pathLt (a b : FilePath) : Prop := a.data < b.data

instance pathLtDecidable : DecidableRel pathLt :=
  fun a b => inferInstanceAs (Decidable (a.data < b.data))

/-- The type `std::set<FilePath>`: the elements in iteration order, strictly ascending
(hence without duplicates). -/
structure FileSet where
  elems : List FilePath
  sorted : elems.Pairwise pathLt

instance : Membership FilePath FileSet := ⟨fun s x => x ∈ s.elems⟩

instance : DecidableEq FileSet := fun a b =>
  decidable_of_iff (a.elems = b.elems)
    ⟨fun h => by cases a; cases b; simp_all, fun h => by rw [h]⟩

/-- The effect of `std::set<FilePath>::insert(x)` on the ascending element sequence. -/
def insertSorted (x : FilePath) : List FilePath → List FilePath
  | [] => [x]
  | y :: ys =>
    if pathLt x y then x :: y :: ys
    else if x = y then y :: ys
    else y :: insertSorted x ys

/-- The struct `Parser::Arguments`. -/
structure Arguments where
  compilerFlags : List String
  systemHeaderSearchPaths : List String
  frameworkSearchPaths : List String
deriving DecidableEq

/-- The message `MessageFinishedParsing(fileCount, parseTime, errorCount)`: the completion
event.  The duration is a measured value; it is carried as a rational. -/
structure MessageFinishedParsing where
  filesParsedCount : Nat
  durationSeconds : ℚ
  errorCount : Nat
deriving DecidableEq

/-- A call the `Project` makes on a collaborator.  Reads of the settings
singletons are not logged. -/
inductive Event (FM : Type) where
  /-- The call `std::make_shared<FileManager>(sourcePaths, includePaths, sourceExtensions, includeExtensions)` -/
  | fileManagerConstructed (sourcePaths includePaths sourceExtensions includeExtensions : List String)
  /-- The call `m_fileManager->fetchFilePaths()`, with the instance it is called on -/
  | fetchFilePaths (self : FM)
  | getAddedFilePaths
  | getUpdatedFilePaths
  | getRemovedFilePaths
  /-- The call `m_storage->getDependingFilePathsAndRemoveFileNodes(filePaths)` -/
  | getDependingFilePathsAndRemoveFileNodes (filePaths : FileSet)
  /-- The call `m_storage->clearFileData(filePaths)` -/
  | clearFileData (filePaths : FileSet)
  | getErrorCount
  /-- The call `parser.parseFiles(filesToParse, args)` -/
  | parseFiles (filesToParse : List FilePath) (args : Arguments)
  /-- The call `MessageFinishedParsing(...).dispatch()` -/
  | dispatch (msg : MessageFinishedParsing)
  /-- The call `std::make_shared<Storage>()` of `clearStorage` -/
  | storageCreated
  /-- The call `m_storageAccessProxy->setSubject(m_storage.get())` -/
  | setSubject
  /-- The call `Token::resetNextId()` -/
  | resetNextId
deriving DecidableEq

/-- The behaviour of the collaborators of `Project`, over their state types:
`PS` `ProjectSettings`, `AS` `ApplicationSettings`, `FM` `FileManager`,
`St` `Storage`. -/
structure Collaborators (PS AS FM St : Type) where
  /-- The call `ProjectSettings::load(file)`: success flag and the settings afterwards -/
  load : PS → String → Bool × PS
  /-- The call `ProjectSettings::save(file)` -/
  save : PS → String → PS
  /-- The call `ProjectSettings::clear()` -/
  clear : PS → PS
  /-- The call `ProjectSettings::setSourcePaths(paths)`: success flag and the settings afterwards -/
  setSourcePaths : PS → List String → Bool × PS
  getSourcePaths : PS → List String
  getCompilerFlags : PS → List String
  getHeaderSearchPaths : PS → List String
  getFrameworkSearchPaths : PS → List String
  appCompilerFlags : AS → List String
  appHeaderSearchPaths : AS → List String
  appFrameworkSearchPaths : AS → List String
  /-- The `FileManager` constructor -/
  newFileManager : List String → List String → List String → List String → FM
  fetchFilePaths : FM → FM
  getAddedFilePaths : FM → FileSet
  getUpdatedFilePaths : FM → FileSet
  getRemovedFilePaths : FM → FileSet
  /-- The `Storage` constructor -/
  newStorage : St
  /-- The dependents returned, and the storage afterwards -/
  getDependingFilePathsAndRemoveFileNodes : St → FileSet → FileSet × St
  clearFileData : St → FileSet → St
  getErrorCount : St → Nat
  /-- The call `CxxParser(storage, fileManager).parseFiles(files, args)`: the storage
  and the file manager afterwards -/
  parseFiles : St → FM → List FilePath → Arguments → St × FM

/-- The data members of `Project` (`m_storageAccessProxy` is only written to
in `clearStorage`, which is logged). -/
structure Project (FM St : Type) where
  m_projectSettingsFilepath : String
  m_storage : St
  m_fileManager : Option FM

/-- The `Project`, the settings singletons it reads, and the log of calls. -/
structure World (PS AS FM St : Type) where
  project : Project FM St
  projectSettings : PS
  applicationSettings : AS
  trace : List (Event FM)

variable {PS AS FM St : Type}

/-! ## `utility::append` -/

/-- Modelled from the spec: `utility::append` on vectors (utility/utility.h
is not among the sources): the second vector is appended after the first,
duplicates kept. -/
def utility_append (a b : List String) : List String := a ++ b

/-- The call `std::set<FilePath>::insert(x)`: the element is placed in order, a path
already present is not added again. -/
def FileSet.insert (s : FileSet) (x : FilePath) : FileSet :=
  ⟨insertSorted x s.elems, by
    have mem : ∀ (l : List FilePath) (y : FilePath), y ∈ insertSorted x l → y = x ∨ y ∈ l := by
      intro l
      induction l with
      | nil => intro y hy; simpa [insertSorted] using hy
      | cons z zs ih =>
        intro y hy
        unfold insertSorted at hy
        split at hy
        · simpa using hy
        · split at hy
          · exact Or.inr hy
          · rcases List.mem_cons.1 hy with h | h
            · exact Or.inr (List.mem_cons.2 (Or.inl h))
            · rcases ih y h with h | h
              · exact Or.inl h
              · exact Or.inr (List.mem_cons.2 (Or.inr h))
    have key : ∀ l : List FilePath, l.Pairwise pathLt → (insertSorted x l).Pairwise pathLt := by
      intro l
      induction l with
      | nil => intro _; simp [insertSorted]
      | cons z zs ih =>
        intro h
        unfold insertSorted
        rw [List.pairwise_cons] at h
        split
        · rename_i hxz
          refine List.pairwise_cons.2 ⟨?_, List.pairwise_cons.2 h⟩
          intro a ha
          rcases List.mem_cons.1 ha with rfl | ha
          · exact hxz
          · exact lt_trans (α := List Char) hxz (h.1 a ha)
        · split
          · exact List.pairwise_cons.2 h
          · rename_i hxz hne
            refine List.pairwise_cons.2 ⟨?_, ih h.2⟩
            intro a ha
            rcases mem zs a ha with rfl | ha
            · rcases lt_trichotomy (α := List Char) a.data z.data with h3 | h3 | h3
              · exact absurd h3 hxz
              · exact absurd (String.ext h3) hne
              · exact h3
            · exact h.1 a ha
    exact key s.elems s.sorted⟩

/-- Modelled from the spec: `utility::append` on sets (utility/utility.h is
not among the sources): every element of the second set is inserted into
the first. -/
def utility_append_set (a b : FileSet) : FileSet :=
  b.elems.foldl FileSet.insert a

/-! ## `Project` member functions -/

/-- The member function `Project::loadProjectSettings(projectSettingsFile)`: the returned flag and
the state afterwards. -/
def loadProjectSettings (c : Collaborators PS AS FM St) (projectSettingsFile : String)
    (w : World PS AS FM St) : Bool × World PS AS FM St :=
  let r := c.load w.projectSettings projectSettingsFile
  let success := r.1
  let w1 := { w with projectSettings := r.2 }
  if success then
    (success, { w1 with project := { w1.project with m_projectSettingsFilepath := projectSettingsFile } })
  else
    (success, w1)

/-- The member function `Project::saveProjectSettings(projectSettingsFile)`. -/
def saveProjectSettings (c : Collaborators PS AS FM St) (projectSettingsFile : String)
    (w : World PS AS FM St) : Bool × World PS AS FM St :=
  if !projectSettingsFile.isEmpty then
    let w1 := { w with project := { w.project with m_projectSettingsFilepath := projectSettingsFile } }
    (true, { w1 with projectSettings := c.save w1.projectSettings projectSettingsFile })
  else if !w.project.m_projectSettingsFilepath.isEmpty then
    (true, { w with projectSettings := c.save w.projectSettings w.project.m_projectSettingsFilepath })
  else
    (false, w)

/-- The member function `Project::clearProjectSettings()`. -/
def clearProjectSettings (c : Collaborators PS AS FM St) (w : World PS AS FM St) :
    World PS AS FM St :=
  let w1 := { w with project := { w.project with m_projectSettingsFilepath := "" } }
  { w1 with projectSettings := c.clear w1.projectSettings }

/-- The member function `Project::setSourceDirectoryPath(sourceDirectoryPath)`. -/
def setSourceDirectoryPath (c : Collaborators PS AS FM St) (sourceDirectoryPath : String)
    (w : World PS AS FM St) : Bool × World PS AS FM St :=
  let w1 := { w with project :=
    { w.project with m_projectSettingsFilepath := sourceDirectoryPath ++ "/ProjectSettings.xml" } }
  let r := c.setSourcePaths w1.projectSettings [sourceDirectoryPath]
  (r.1, { w1 with projectSettings := r.2 })

/-- The member function `Project::clearStorage()`. -/
def clearStorage (c : Collaborators PS AS FM St) (w : World PS AS FM St) : World PS AS FM St :=
  { w with
    project := { w.project with m_storage := c.newStorage }
    trace := w.trace ++ [Event.storageCreated, Event.setSubject, Event.resetNextId] }

/-- The member function `Project::parseCode()`.  `measured` is the value `utility::duration`
returns for the timed `parseFiles` call of this run. -/
def parseCode (c : Collaborators PS AS FM St) (measured : ℚ) (w : World PS AS FM St) :
    World PS AS FM St :=
  let projSettings := w.projectSettings
  let appSettings := w.applicationSettings
  let sourcePaths := c.getSourcePaths projSettings
  if sourcePaths.length = 0 then
    w
  else
    let includePaths := sourcePaths
    let sourceExtensions := [".cpp", ".cc"]
    let includeExtensions := [".h", ".hpp"]
    let fm0 := match w.project.m_fileManager with
      | some fm => fm
      | none => c.newFileManager sourcePaths includePaths sourceExtensions includeExtensions
    let t0 := match w.project.m_fileManager with
      | some _ => w.trace
      | none => w.trace ++
          [Event.fileManagerConstructed sourcePaths includePaths sourceExtensions includeExtensions]
    let fm1 := c.fetchFilePaths fm0
    let addedFilePaths := c.getAddedFilePaths fm1
    let updatedFilePaths := c.getUpdatedFilePaths fm1
    let removedFilePaths := c.getRemovedFilePaths fm1
    let t1 := t0 ++ [Event.fetchFilePaths fm0, Event.getAddedFilePaths,
      Event.getUpdatedFilePaths, Event.getRemovedFilePaths]
    let d1 := c.getDependingFilePathsAndRemoveFileNodes w.project.m_storage updatedFilePaths
    let t2 := t1 ++ [Event.getDependingFilePathsAndRemoveFileNodes updatedFilePaths]
    let updatedFilePaths1 := utility_append_set updatedFilePaths d1.1
    let d2 := c.getDependingFilePathsAndRemoveFileNodes d1.2 removedFilePaths
    let t3 := t2 ++ [Event.getDependingFilePathsAndRemoveFileNodes removedFilePaths]
    let updatedFilePaths2 := utility_append_set updatedFilePaths1 d2.1
    let st3 := c.clearFileData d2.2 updatedFilePaths2
    let st4 := c.clearFileData st3 removedFilePaths
    let t4 := t3 ++ [Event.clearFileData updatedFilePaths2, Event.clearFileData removedFilePaths]
    let filesToParse := addedFilePaths.elems ++ updatedFilePaths2.elems
    if filesToParse.length = 0 then
      { w with
        project := { w.project with m_storage := st4, m_fileManager := some fm1 }
        trace := t4 ++ [Event.getErrorCount,
          Event.dispatch ⟨0, 0, c.getErrorCount st4⟩] }
    else
      let args : Arguments :=
        { compilerFlags :=
            utility_append (utility_append [] (c.getCompilerFlags projSettings))
              (c.appCompilerFlags appSettings)
          systemHeaderSearchPaths :=
            utility_append
              (utility_append (utility_append [] includePaths) (c.getHeaderSearchPaths projSettings))
              (c.appHeaderSearchPaths appSettings)
          frameworkSearchPaths :=
            utility_append (utility_append [] (c.getFrameworkSearchPaths projSettings))
              (c.appFrameworkSearchPaths appSettings) }
      let p := c.parseFiles st4 fm1 filesToParse args
      let duration := measured
      { w with
        project := { w.project with m_storage := p.1, m_fileManager := some p.2 }
        trace := t4 ++ [Event.parseFiles filesToParse args, Event.getErrorCount,
          Event.dispatch ⟨filesToParse.length, duration, c.getErrorCount p.1⟩] }

/-- A call on the public interface of `Project`. -/
inductive Call where
  | loadProjectSettings (projectSettingsFile : String)
  | saveProjectSettings (projectSettingsFile : String)
  | clearProjectSettings
  | setSourceDirectoryPath (sourceDirectoryPath : String)
  | clearStorage
  | parseCode (measured : ℚ)

/-- The state after one call, the collaborators behaving as `c` during it. -/
def Call.exec (c : Collaborators PS AS FM St) : Call → World PS AS FM St → World PS AS FM St
  | Call.loadProjectSettings f, w => (Sourcetrail.loadProjectSettings c f w).2
  | Call.saveProjectSettings f, w => (Sourcetrail.saveProjectSettings c f w).2
  | Call.clearProjectSettings, w => Sourcetrail.clearProjectSettings c w
  | Call.setSourceDirectoryPath d, w => (Sourcetrail.setSourceDirectoryPath c d w).2
  | Call.clearStorage, w => Sourcetrail.clearStorage c w
  | Call.parseCode m, w => Sourcetrail.parseCode c m w

/-- The state after a sequence of calls, each with the collaborator behaviour
of its moment (the file system and the settings files may change in between). -/
def runCalls : List (Collaborators PS AS FM St × Call) → World PS AS FM St → World PS AS FM St
  | [], w => w
  | (c, k) :: rest, w => runCalls rest (k.exec c w)

/-! ## Observations on the call log -/

/-- The completion events of a log. -/
def dispatched : List (Event FM) → List MessageFinishedParsing
  | [] => []
  | Event.dispatch m :: rest => m :: dispatched rest
  | _ :: rest => dispatched rest

/-- The `FileManager` constructions of a log, with their arguments. -/
def constructions : List (Event FM) → List (List String × List String × List String × List String)
  | [] => []
  | Event.fileManagerConstructed a b x y :: rest => (a, b, x, y) :: constructions rest
  | _ :: rest => constructions rest

/-- The work lists and arguments of the `parseFiles` calls of a log. -/
def parsed : List (Event FM) → List (List FilePath × Arguments)
  | [] => []
  | Event.parseFiles fs a :: rest => (fs, a) :: parsed rest
  | _ :: rest => parsed rest

/-- Whether the event is a call on the storage (the parser writes to the
storage it was constructed with, so `parseFiles` counts). -/
def Event.isStoreCall : Event FM → Bool
  | Event.getDependingFilePathsAndRemoveFileNodes _ => true
  | Event.clearFileData _ => true
  | Event.getErrorCount => true
  | Event.parseFiles _ _ => true
  | Event.storageCreated => true
  | _ => false

/-! ## The values one run of `parseCode` computes

Names for the intermediate values of `Project::parseCode` in a state whose
settings have at least one source path; `parseCode_eq` below states
`parseCode` in terms of them. -/

/-- The calls logged by the run of `parseCode` started in `w`. -/
def runLog (c : Collaborators PS AS FM St) (measured : ℚ) (w : World PS AS FM St) :
    List (Event FM) :=
  (parseCode c measured w).trace.drop w.trace.length

/-- The file manager the run works with (lines 87-98): the instance the
`Project` already holds, else the one constructed now. -/
def fileManagerInUse (c : Collaborators PS AS FM St) (w : World PS AS FM St) : FM :=
  match w.project.m_fileManager with
  | some fm => fm
  | none =>
    c.newFileManager (c.getSourcePaths w.projectSettings) (c.getSourcePaths w.projectSettings)
      [".cpp", ".cc"] [".h", ".hpp"]

/-- The file manager after `fetchFilePaths()` (line 100). -/
def fetched (c : Collaborators PS AS FM St) (w : World PS AS FM St) : FM :=
  c.fetchFilePaths (fileManagerInUse c w)

/-- The set `addedFilePaths` (line 101). -/
def addedSet (c : Collaborators PS AS FM St) (w : World PS AS FM St) : FileSet :=
  c.getAddedFilePaths (fetched c w)

/-- The set `updatedFilePaths` as returned by the file manager (line 102). -/
def updatedSet (c : Collaborators PS AS FM St) (w : World PS AS FM St) : FileSet :=
  c.getUpdatedFilePaths (fetched c w)

/-- The set `removedFilePaths` (line 103). -/
def removedSet (c : Collaborators PS AS FM St) (w : World PS AS FM St) : FileSet :=
  c.getRemovedFilePaths (fetched c w)

/-- The first expansion call (line 105): the dependents of the updated
files, and the storage afterwards. -/
def dependentsOfUpdated (c : Collaborators PS AS FM St) (w : World PS AS FM St) : FileSet × St :=
  c.getDependingFilePathsAndRemoveFileNodes w.project.m_storage (updatedSet c w)

/-- The second expansion call (line 106): the dependents of the removed
files, and the storage afterwards. -/
def dependentsOfRemoved (c : Collaborators PS AS FM St) (w : World PS AS FM St) : FileSet × St :=
  c.getDependingFilePathsAndRemoveFileNodes (dependentsOfUpdated c w).2 (removedSet c w)

/-- The set `updatedFilePaths` after both `utility::append` calls (lines 105-106):
the expanded updated set. -/
def expandedUpdated (c : Collaborators PS AS FM St) (w : World PS AS FM St) : FileSet :=
  utility_append_set (utility_append_set (updatedSet c w) (dependentsOfUpdated c w).1)
    (dependentsOfRemoved c w).1

/-- The storage after both `clearFileData` calls (lines 108-109). -/
def invalidatedStorage (c : Collaborators PS AS FM St) (w : World PS AS FM St) : St :=
  c.clearFileData (c.clearFileData (dependentsOfRemoved c w).2 (expandedUpdated c w))
    (removedSet c w)

/-- The vector `filesToParse` (lines 111-113). -/
def workList (c : Collaborators PS AS FM St) (w : World PS AS FM St) : List FilePath :=
  (addedSet c w).elems ++ (expandedUpdated c w).elems

/-- The `Parser::Arguments` assembled in lines 121-132. -/
def assembledArguments (c : Collaborators PS AS FM St) (w : World PS AS FM St) : Arguments :=
  { compilerFlags :=
      utility_append (utility_append [] (c.getCompilerFlags w.projectSettings))
        (c.appCompilerFlags w.applicationSettings)
    systemHeaderSearchPaths :=
      utility_append
        (utility_append (utility_append [] (c.getSourcePaths w.projectSettings))
          (c.getHeaderSearchPaths w.projectSettings))
        (c.appHeaderSearchPaths w.applicationSettings)
    frameworkSearchPaths :=
      utility_append (utility_append [] (c.getFrameworkSearchPaths w.projectSettings))
        (c.appFrameworkSearchPaths w.applicationSettings) }

/-- The storage after the `parseFiles` call of the run (line 139). -/
def parsedStorage (c : Collaborators PS AS FM St) (w : World PS AS FM St) : St :=
  (c.parseFiles (invalidatedStorage c w) (fetched c w) (workList c w) (assembledArguments c w)).1

/-- The events a run logs before the work list is examined (lines 87-109). -/
def invalidationLog (c : Collaborators PS AS FM St) (w : World PS AS FM St) : List (Event FM) :=
  (match w.project.m_fileManager with
    | some _ => []
    | none => [Event.fileManagerConstructed (c.getSourcePaths w.projectSettings)
        (c.getSourcePaths w.projectSettings) [".cpp", ".cc"] [".h", ".hpp"]]) ++
  [Event.fetchFilePaths (fileManagerInUse c w), Event.getAddedFilePaths,
    Event.getUpdatedFilePaths, Event.getRemovedFilePaths,
    Event.getDependingFilePathsAndRemoveFileNodes (updatedSet c w),
    Event.getDependingFilePathsAndRemoveFileNodes (removedSet c w),
    Event.clearFileData (expandedUpdated c w), Event.clearFileData (removedSet c w)]

/-! ## The life of one file manager instance -/

/-- The state of the file manager instance `fm` after the run of `parseCode`
started in `w` has worked on it: the run calls `fetchFilePaths()` on it
(line 100) and, when the work list is not empty, hands it to the parser
(line 134); with zero source paths the run does not touch it. -/
def fileManagerAfterRun (c : Collaborators PS AS FM St) (w : World PS AS FM St) (fm : FM) : FM :=
  if (c.getSourcePaths w.projectSettings).length = 0 then fm
  else if (workList c w).length = 0 then c.fetchFilePaths fm
  else (c.parseFiles (invalidatedStorage c w) (c.fetchFilePaths fm) (workList c w)
    (assembledArguments c w)).2

/-- The state of the file manager instance `fm` after one call on the
`Project` in state `w`: only `parseCode` works on the file manager. -/
def Call.onFileManager (c : Collaborators PS AS FM St) : Call → World PS AS FM St → FM → FM
  | Call.parseCode _, w, fm => fileManagerAfterRun c w fm
  | _, _, fm => fm

/-- The state of the file manager instance `fm` after a sequence of calls on
the `Project`, started in state `w`. -/
def instanceAfter : List (Collaborators PS AS FM St × Call) → World PS AS FM St → FM → FM
  | [], _, fm => fm
  | (c, k) :: rest, w, fm => instanceAfter rest (k.exec c w) (k.onFileManager c w fm)

/-! ## Concrete collaborators for the scenarios -/

/-- The set holding the given paths. -/
def FileSet.ofList (l : List FilePath) : FileSet :=
  l.foldl FileSet.insert ⟨[], List.Pairwise.nil⟩

/-- Settings of the scenarios: the values the getters return. -/
structure SimpleSettings where
  sourcePaths : List String
  compilerFlags : List String
  headerSearchPaths : List String
  frameworkSearchPaths : List String
deriving DecidableEq

/-- A file manager of the scenarios: the classification it reports. -/
structure SimpleFileManager where
  added : List FilePath
  updated : List FilePath
  removed : List FilePath
deriving DecidableEq

/-- A storage of the scenarios: the recorded dependencies, as pairs
(dependent file, file it depends on), and the error counter. -/
structure SimpleStorage where
  dependencies : List (FilePath × FilePath)
  errorCount : Nat
deriving DecidableEq

/-- Collaborators of the scenarios.  The next scan of the file system
reports `scan`; settings operations succeed iff `settingsOk`; the parser
records `parseErrors` errors; the storage returns as dependents the files
recorded as depending on a file of the queried set. -/
def simpleCollaborators (scan : SimpleFileManager) (settingsOk : Bool) (parseErrors : Nat) :
    Collaborators SimpleSettings SimpleSettings SimpleFileManager SimpleStorage where
  load ps _ := (settingsOk, ps)
  save ps _ := ps
  clear _ := ⟨[], [], [], []⟩
  setSourcePaths ps paths :=
    if settingsOk then (true, { ps with sourcePaths := paths }) else (false, ps)
  getSourcePaths ps := ps.sourcePaths
  getCompilerFlags ps := ps.compilerFlags
  getHeaderSearchPaths ps := ps.headerSearchPaths
  getFrameworkSearchPaths ps := ps.frameworkSearchPaths
  appCompilerFlags ps := ps.compilerFlags
  appHeaderSearchPaths ps := ps.headerSearchPaths
  appFrameworkSearchPaths ps := ps.frameworkSearchPaths
  newFileManager _ _ _ _ := ⟨[], [], []⟩
  fetchFilePaths _ := scan
  getAddedFilePaths fm := FileSet.ofList fm.added
  getUpdatedFilePaths fm := FileSet.ofList fm.updated
  getRemovedFilePaths fm := FileSet.ofList fm.removed
  newStorage := ⟨[], 0⟩
  getDependingFilePathsAndRemoveFileNodes st s :=
    (FileSet.ofList ((st.dependencies.filter (fun d => s.elems.contains d.2)).map Prod.fst),
      { st with dependencies := st.dependencies.filter (fun d => !s.elems.contains d.2) })
  clearFileData st s :=
    { st with dependencies := st.dependencies.filter (fun d => !s.elems.contains d.1) }
  getErrorCount st := st.errorCount
  parseFiles st fm _ _ := ({ st with errorCount := st.errorCount + parseErrors }, fm)

/-- A freshly created `Project` (no file manager yet, empty log) over the
given settings and storage. -/
def simpleWorld (ps as : SimpleSettings) (st : SimpleStorage) :
    World SimpleSettings SimpleSettings SimpleFileManager SimpleStorage :=
  { project := { m_projectSettingsFilepath := "old/ProjectSettings.xml", m_storage := st,
                 m_fileManager := none }
    projectSettings := ps
    applicationSettings := as
    trace := [] }

/-- Project settings with the source root `src`, the flag `A`, the header
search path `inc` and the framework search path `fw`. -/
def settingsA : SimpleSettings := ⟨["src"], ["A"], ["inc"], ["fw"]⟩

/-- Application settings with the flag `B`, the header search path `sys`
and the framework search path `appfw`. -/
def settingsB : SimpleSettings := ⟨[], ["B"], ["sys"], ["appfw"]⟩

/-- Scenario S1: no source roots. -/
def worldNoSources : World SimpleSettings SimpleSettings SimpleFileManager SimpleStorage :=
  simpleWorld ⟨[], ["A"], [], []⟩ settingsB ⟨[], 3⟩

/-- Scenario S4 and the unchanged project: an empty storage with 3 errors so far. -/
def worldS4 : World SimpleSettings SimpleSettings SimpleFileManager SimpleStorage :=
  simpleWorld settingsA settingsB ⟨[], 3⟩

/-- Scenario S4: the scan reports `a.cpp` added and `c.cpp` updated. -/
def scanS4 : SimpleFileManager := ⟨["a.cpp"], ["c.cpp"], []⟩

/-- A scan that reports no change. -/
def scanUnchanged : SimpleFileManager := ⟨[], [], []⟩

/-- The storage records that `c.cpp` depends on `a.cpp`. -/
def worldOverlap : World SimpleSettings SimpleSettings SimpleFileManager SimpleStorage :=
  simpleWorld settingsA settingsB ⟨[("c.cpp", "a.cpp")], 0⟩

/-- The scan reports `c.cpp` added and `a.cpp` updated (disjoint sets). -/
def scanOverlap : SimpleFileManager := ⟨["c.cpp"], ["a.cpp"], []⟩

/-- The storage records that `c.cpp` depends on `z.h` and counts 3 errors. -/
def worldInvalidate : World SimpleSettings SimpleSettings SimpleFileManager SimpleStorage :=
  simpleWorld settingsA settingsB ⟨[("c.cpp", "z.h")], 3⟩

/-! # Theorems -/

/-! ## The set operations -/

theorem insertSorted_mem (x y : FilePath) (l : List FilePath) :
    y ∈ insertSorted x l ↔ y = x ∨ y ∈ l := by
  induction l with
  | nil => simp [insertSorted]
  | cons z zs ih =>
    unfold insertSorted
    split
    · simp
    · split
      · rename_i h; subst h; simp
      · simp [ih]; tauto

theorem pathLt_irrefl (a : FilePath) : ¬ pathLt a a :=
  lt_irrefl (α := List Char) a.data

/-! ## Basic facts -/

theorem parseCode_no_sources (c : Collaborators PS AS FM St) (m : ℚ) (w : World PS AS FM St)
    (h : c.getSourcePaths w.projectSettings = []) : parseCode c m w = w := by
  simp [parseCode, h]

theorem parseCode_eq (c : Collaborators PS AS FM St) (m : ℚ) (w : World PS AS FM St) :
    parseCode c m w =
      if (c.getSourcePaths w.projectSettings).length = 0 then w
      else if (workList c w).length = 0 then
        { w with
          project := { w.project with
            m_storage := invalidatedStorage c w, m_fileManager := some (fetched c w) }
          trace := w.trace ++ (invalidationLog c w ++ [Event.getErrorCount,
            Event.dispatch ⟨0, 0, c.getErrorCount (invalidatedStorage c w)⟩]) }
      else
        { w with
          project := { w.project with
            m_storage := parsedStorage c w
            m_fileManager := some (c.parseFiles (invalidatedStorage c w) (fetched c w)
              (workList c w) (assembledArguments c w)).2 }
          trace := w.trace ++ (invalidationLog c w ++
            [Event.parseFiles (workList c w) (assembledArguments c w), Event.getErrorCount,
              Event.dispatch
                ⟨(workList c w).length, m, c.getErrorCount (parsedStorage c w)⟩]) } := by
  unfold parseCode invalidationLog
  cases hfm : w.project.m_fileManager <;>
    simp only [workList, addedSet, expandedUpdated, updatedSet, removedSet, fetched,
      fileManagerInUse, dependentsOfUpdated, dependentsOfRemoved, invalidatedStorage,
      assembledArguments, parsedStorage, hfm, List.append_assoc, List.cons_append,
      List.nil_append]

theorem trace_eq (c : Collaborators PS AS FM St) (m : ℚ) (w : World PS AS FM St) :
    (parseCode c m w).trace = w.trace ++ runLog c m w := by
  unfold runLog
  rw [parseCode_eq]
  split
  · simp
  · split <;> simp

theorem runLog_no_sources (c : Collaborators PS AS FM St) (m : ℚ) (w : World PS AS FM St)
    (h : c.getSourcePaths w.projectSettings = []) : runLog c m w = [] := by
  simp [runLog, parseCode_no_sources c m w h]

theorem runLog_empty (c : Collaborators PS AS FM St) (m : ℚ) (w : World PS AS FM St)
    (h : c.getSourcePaths w.projectSettings ≠ []) (he : workList c w = []) :
    runLog c m w = invalidationLog c w ++ [Event.getErrorCount,
      Event.dispatch ⟨0, 0, c.getErrorCount (invalidatedStorage c w)⟩] := by
  unfold runLog
  rw [parseCode_eq]
  simp [h, he]

theorem runLog_parse (c : Collaborators PS AS FM St) (m : ℚ) (w : World PS AS FM St)
    (h : c.getSourcePaths w.projectSettings ≠ []) (he : workList c w ≠ []) :
    runLog c m w = invalidationLog c w ++
      [Event.parseFiles (workList c w) (assembledArguments c w), Event.getErrorCount,
        Event.dispatch ⟨(workList c w).length, m, c.getErrorCount (parsedStorage c w)⟩] := by
  unfold runLog
  rw [parseCode_eq]
  simp [h, he]

theorem dispatched_append (a b : List (Event FM)) :
    dispatched (a ++ b) = dispatched a ++ dispatched b := by
  induction a with
  | nil => rfl
  | cons e t ih => cases e <;> simp [dispatched, ih]

theorem parsed_append (a b : List (Event FM)) : parsed (a ++ b) = parsed a ++ parsed b := by
  induction a with
  | nil => rfl
  | cons e t ih => cases e <;> simp [parsed, ih]

theorem constructions_append (a b : List (Event FM)) :
    constructions (a ++ b) = constructions a ++ constructions b := by
  induction a with
  | nil => rfl
  | cons e t ih => cases e <;> simp [constructions, ih]

theorem dispatched_invalidationLog (c : Collaborators PS AS FM St) (w : World PS AS FM St) :
    dispatched (invalidationLog c w) = [] := by
  unfold invalidationLog
  cases w.project.m_fileManager <;> simp [dispatched]

theorem parsed_invalidationLog (c : Collaborators PS AS FM St) (w : World PS AS FM St) :
    parsed (invalidationLog c w) = [] := by
  unfold invalidationLog
  cases w.project.m_fileManager <;> simp [parsed]

theorem foldl_insert_mem (x : FilePath) (l : List FilePath) (a : FileSet) :
    x ∈ (l.foldl FileSet.insert a).elems ↔ x ∈ a.elems ∨ x ∈ l := by
  induction l generalizing a with
  | nil => simp
  | cons y ys ih =>
    simp only [List.foldl_cons, ih, FileSet.insert, insertSorted_mem, List.mem_cons]
    tauto

theorem utility_append_set_mem (x : FilePath) (a b : FileSet) :
    x ∈ (utility_append_set a b).elems ↔ x ∈ a.elems ∨ x ∈ b.elems :=
  foldl_insert_mem x b.elems a

theorem expandedUpdated_mem (c : Collaborators PS AS FM St) (w : World PS AS FM St)
    (x : FilePath) :
    x ∈ (expandedUpdated c w).elems ↔
      x ∈ (updatedSet c w).elems ∨ x ∈ (dependentsOfUpdated c w).1.elems ∨
        x ∈ (dependentsOfRemoved c w).1.elems := by
  unfold expandedUpdated
  rw [utility_append_set_mem, utility_append_set_mem, or_assoc]

theorem FileSet.nodup (s : FileSet) : s.elems.Nodup := by
  have h := s.sorted
  refine List.Pairwise.imp ?_ h
  intro a b hab heq
  subst heq
  exact pathLt_irrefl a hab

/-! ## Properties of `parseCode` and of the settings operations -/

/-- C3: with zero source paths `parseCode` is a silent no-op: the whole
state, the `Project` fields and the call log included, is unchanged, so no
completion event is dispatched, the file manager is neither constructed nor
queried, and no call is made on the storage or the parser. -/
theorem parseCode_zero_source_paths_noop (c : Collaborators PS AS FM St) (m : ℚ)
    (w : World PS AS FM St) (h : (c.getSourcePaths w.projectSettings).length = 0) :
    parseCode c m w = w ∧ (parseCode c m w).project = w.project ∧
      (parseCode c m w).trace = w.trace ∧ runLog c m w = [] := by
  have h2 : c.getSourcePaths w.projectSettings = [] := List.length_eq_zero.1 h
  have h3 := parseCode_no_sources c m w h2
  exact ⟨h3, by rw [h3], by rw [h3], runLog_no_sources c m w h2⟩

/-- Witness of C3 on scenario S1, a project without source roots. -/
theorem parseCode_zero_source_paths_noop_witness :
    ((simpleCollaborators scanS4 true 2).getSourcePaths worldNoSources.projectSettings).length = 0 ∧
      parseCode (simpleCollaborators scanS4 true 2) (1 / 2) worldNoSources = worldNoSources ∧
      (parseCode (simpleCollaborators scanS4 true 2) (1 / 2) worldNoSources).trace = [] :=
  ⟨by decide,
    (parseCode_zero_source_paths_noop (simpleCollaborators scanS4 true 2) (1 / 2) worldNoSources
      (by decide)).1,
    (parseCode_zero_source_paths_noop (simpleCollaborators scanS4 true 2) (1 / 2) worldNoSources
      (by decide)).2.2.1⟩

/-- C4, as stated, fails: on scenario S1 (no source roots) the run dispatches
no completion event. -/
theorem no_completion_event_without_sources :
    dispatched (parseCode (simpleCollaborators scanS4 true 2) (1 / 2) worldNoSources).trace = [] ∧
      ¬ ∃ msg, dispatched (parseCode (simpleCollaborators scanS4 true 2) (1 / 2) worldNoSources).trace
        = dispatched worldNoSources.trace ++ [msg] := by
  have h := parseCode_no_sources (simpleCollaborators scanS4 true 2) (1 / 2) worldNoSources rfl
  rw [h]
  refine ⟨rfl, ?_⟩
  rintro ⟨msg, hm⟩
  simp [worldNoSources, simpleWorld, dispatched] at hm

/-- C4 (amended): a run of `parseCode` adds to the completion events
dispatched so far exactly one event when the settings have at least one
source path, and none when they have zero source paths. -/
theorem completion_events_per_run (c : Collaborators PS AS FM St) (m : ℚ)
    (w : World PS AS FM St) :
    ∃ new, dispatched (parseCode c m w).trace = dispatched w.trace ++ new ∧
      new.length = if (c.getSourcePaths w.projectSettings).length = 0 then 0 else 1 := by
  refine ⟨dispatched (runLog c m w), ?_, ?_⟩
  · rw [trace_eq, dispatched_append]
  · by_cases h : c.getSourcePaths w.projectSettings = []
    · simp [runLog_no_sources c m w h, h, dispatched]
    · by_cases he : workList c w = []
      · simp [runLog_empty c m w h he, h, dispatched_append, dispatched_invalidationLog,
          dispatched]
      · simp [runLog_parse c m w h he, h, dispatched_append, dispatched_invalidationLog,
          dispatched]

/-- C2: with at least one source path, an empty added set and an empty
expanded updated set, the run dispatches exactly one completion event,
`(0, 0, getErrorCount())` read on the storage after both `clearFileData`
calls, and does not invoke `parseFiles`. -/
theorem empty_work_list_reports_zero (c : Collaborators PS AS FM St) (m : ℚ)
    (w : World PS AS FM St) (h : c.getSourcePaths w.projectSettings ≠ [])
    (ha : (addedSet c w).elems = []) (hu : (expandedUpdated c w).elems = []) :
    dispatched (runLog c m w) = [⟨0, 0, c.getErrorCount (invalidatedStorage c w)⟩] ∧
      parsed (runLog c m w) = [] ∧
      dispatched (parseCode c m w).trace =
        dispatched w.trace ++ [⟨0, 0, c.getErrorCount (invalidatedStorage c w)⟩] ∧
      parsed (parseCode c m w).trace = parsed w.trace := by
  have he : workList c w = [] := by simp [workList, ha, hu]
  have hl := runLog_empty c m w h he
  have hd : dispatched (runLog c m w) = [⟨0, 0, c.getErrorCount (invalidatedStorage c w)⟩] := by
    rw [hl, dispatched_append, dispatched_invalidationLog]; rfl
  have hp : parsed (runLog c m w) = [] := by
    rw [hl, parsed_append, parsed_invalidationLog]; rfl
  refine ⟨hd, hp, ?_, ?_⟩
  · rw [trace_eq, dispatched_append, hd]
  · rw [trace_eq, parsed_append, hp, List.append_nil]

/-- Witness of C2: nothing changed since the last scan, the storage counts 3
errors; the run reports `(0, 0, 3)` and does not parse. -/
theorem empty_work_list_reports_zero_witness :
    (simpleCollaborators scanUnchanged true 2).getSourcePaths worldS4.projectSettings ≠ [] ∧
      (addedSet (simpleCollaborators scanUnchanged true 2) worldS4).elems = [] ∧
      (expandedUpdated (simpleCollaborators scanUnchanged true 2) worldS4).elems = [] ∧
      dispatched (runLog (simpleCollaborators scanUnchanged true 2) (1 / 2) worldS4) = [⟨0, 0, 3⟩] ∧
      parsed (runLog (simpleCollaborators scanUnchanged true 2) (1 / 2) worldS4) = [] :=
  ⟨by decide, by decide, by decide,
    (empty_work_list_reports_zero (simpleCollaborators scanUnchanged true 2) (1 / 2) worldS4
      (by decide) (by decide) (by decide)).1,
    (empty_work_list_reports_zero (simpleCollaborators scanUnchanged true 2) (1 / 2) worldS4
      (by decide) (by decide) (by decide)).2.1⟩

theorem parsed_runLog_parse (c : Collaborators PS AS FM St) (m : ℚ) (w : World PS AS FM St)
    (h : c.getSourcePaths w.projectSettings ≠ []) (he : workList c w ≠ []) :
    parsed (runLog c m w) = [(workList c w, assembledArguments c w)] := by
  rw [runLog_parse c m w h he, parsed_append, parsed_invalidationLog]; rfl

theorem parsed_runLog_mem (c : Collaborators PS AS FM St) (m : ℚ) (w : World PS AS FM St)
    (fs : List FilePath) (args : Arguments) (hp : (fs, args) ∈ parsed (runLog c m w)) :
    c.getSourcePaths w.projectSettings ≠ [] ∧ workList c w ≠ [] ∧
      fs = workList c w ∧ args = assembledArguments c w := by
  by_cases h : c.getSourcePaths w.projectSettings = []
  · simp [runLog_no_sources c m w h, parsed] at hp
  · by_cases he : workList c w = []
    · rw [runLog_empty c m w h he, parsed_append, parsed_invalidationLog] at hp
      simp [parsed] at hp
    · rw [parsed_runLog_parse c m w h he] at hp
      simp at hp
      exact ⟨h, he, hp.1, hp.2⟩

/-- C6: with at least one source path and a non-empty work list, the run
invokes `parseFiles` exactly once, on the added files followed by the expanded
updated files; it ends with that call, the `getErrorCount()` read and the one
completion event, whose fields are the length of the work list, the measured
duration and the error count of the storage the parser left. -/
theorem parse_then_report (c : Collaborators PS AS FM St) (m : ℚ) (w : World PS AS FM St)
    (h : c.getSourcePaths w.projectSettings ≠ [])
    (hw : (addedSet c w).elems ++ (expandedUpdated c w).elems ≠ []) :
    parsed (runLog c m w) =
        [((addedSet c w).elems ++ (expandedUpdated c w).elems, assembledArguments c w)] ∧
      dispatched (runLog c m w) =
        [⟨((addedSet c w).elems ++ (expandedUpdated c w).elems).length, m,
          c.getErrorCount (c.parseFiles (invalidatedStorage c w) (fetched c w)
            ((addedSet c w).elems ++ (expandedUpdated c w).elems) (assembledArguments c w)).1⟩] ∧
      (∃ pre, parsed pre = [] ∧ dispatched pre = [] ∧ runLog c m w = pre ++
        [Event.parseFiles ((addedSet c w).elems ++ (expandedUpdated c w).elems)
            (assembledArguments c w),
          Event.getErrorCount,
          Event.dispatch ⟨((addedSet c w).elems ++ (expandedUpdated c w).elems).length, m,
            c.getErrorCount (c.parseFiles (invalidatedStorage c w) (fetched c w)
              ((addedSet c w).elems ++ (expandedUpdated c w).elems)
              (assembledArguments c w)).1⟩]) := by
  have he : workList c w ≠ [] := hw
  have hl := runLog_parse c m w h he
  refine ⟨parsed_runLog_parse c m w h he, ?_,
    ⟨invalidationLog c w, parsed_invalidationLog c w, dispatched_invalidationLog c w, hl⟩⟩
  rw [hl, dispatched_append, dispatched_invalidationLog]
  rfl

/-- Witness of C6 on scenario S4: work list `[a.cpp, c.cpp]`, measured
duration 1/2, the parser records 2 errors on a storage that counted 3: the
event is `(2, 1/2, 5)`. -/
theorem parse_then_report_witness :
    (simpleCollaborators scanS4 true 2).getSourcePaths worldS4.projectSettings ≠ [] ∧
      (addedSet (simpleCollaborators scanS4 true 2) worldS4).elems ++
        (expandedUpdated (simpleCollaborators scanS4 true 2) worldS4).elems = ["a.cpp", "c.cpp"] ∧
      (simpleCollaborators scanS4 true 2).getErrorCount
        (invalidatedStorage (simpleCollaborators scanS4 true 2) worldS4) = 3 ∧
      parsed (runLog (simpleCollaborators scanS4 true 2) (1 / 2) worldS4) =
        [(["a.cpp", "c.cpp"], ⟨["A", "B"], ["src", "inc", "sys"], ["fw", "appfw"]⟩)] ∧
      dispatched (runLog (simpleCollaborators scanS4 true 2) (1 / 2) worldS4) =
        [⟨2, 1 / 2, 3 + 2⟩] :=
  ⟨by decide, by decide, by decide,
    (parse_then_report (simpleCollaborators scanS4 true 2) (1 / 2) worldS4
      (by decide) (by decide)).1,
    (parse_then_report (simpleCollaborators scanS4 true 2) (1 / 2) worldS4
      (by decide) (by decide)).2.1⟩

theorem filter_isStoreCall_invalidationLog (c : Collaborators PS AS FM St)
    (w : World PS AS FM St) :
    (invalidationLog c w).filter Event.isStoreCall =
      [Event.getDependingFilePathsAndRemoveFileNodes (updatedSet c w),
        Event.getDependingFilePathsAndRemoveFileNodes (removedSet c w),
        Event.clearFileData (expandedUpdated c w), Event.clearFileData (removedSet c w)] := by
  unfold invalidationLog
  cases w.project.m_fileManager <;> simp [Event.isStoreCall]

theorem storeCalls_in_order (c : Collaborators PS AS FM St) (m : ℚ)
    (w : World PS AS FM St) (h : c.getSourcePaths w.projectSettings ≠ []) :
    (runLog c m w).filter Event.isStoreCall =
      [Event.getDependingFilePathsAndRemoveFileNodes (updatedSet c w),
        Event.getDependingFilePathsAndRemoveFileNodes (removedSet c w),
        Event.clearFileData (expandedUpdated c w), Event.clearFileData (removedSet c w)] ++
      (if (workList c w).length = 0 then [Event.getErrorCount]
        else [Event.parseFiles (workList c w) (assembledArguments c w), Event.getErrorCount]) ∧
    ∃ pre post, runLog c m w = pre ++
      [Event.getDependingFilePathsAndRemoveFileNodes (updatedSet c w),
        Event.getDependingFilePathsAndRemoveFileNodes (removedSet c w),
        Event.clearFileData (expandedUpdated c w), Event.clearFileData (removedSet c w)] ++ post ∧
      pre.filter Event.isStoreCall = [] ∧ parsed pre = [] := by
  have hpre : ∃ pre, invalidationLog c w = pre ++
      [Event.getDependingFilePathsAndRemoveFileNodes (updatedSet c w),
        Event.getDependingFilePathsAndRemoveFileNodes (removedSet c w),
        Event.clearFileData (expandedUpdated c w), Event.clearFileData (removedSet c w)] ∧
      pre.filter Event.isStoreCall = [] ∧ parsed pre = [] := by
    refine ⟨(match w.project.m_fileManager with
        | some _ => []
        | none => [Event.fileManagerConstructed (c.getSourcePaths w.projectSettings)
            (c.getSourcePaths w.projectSettings) [".cpp", ".cc"] [".h", ".hpp"]]) ++
      [Event.fetchFilePaths (fileManagerInUse c w), Event.getAddedFilePaths,
        Event.getUpdatedFilePaths, Event.getRemovedFilePaths], ?_, ?_, ?_⟩
    · unfold invalidationLog
      simp
    · cases w.project.m_fileManager <;> simp [Event.isStoreCall]
    · cases w.project.m_fileManager <;> simp [parsed]
  obtain ⟨pre, hpre, hpre1, hpre2⟩ := hpre
  by_cases he : workList c w = []
  · constructor
    · rw [runLog_empty c m w h he, List.filter_append, filter_isStoreCall_invalidationLog]
      simp [he, Event.isStoreCall]
    · exact ⟨pre, _, by rw [runLog_empty c m w h he, hpre], hpre1, hpre2⟩
  · constructor
    · rw [runLog_parse c m w h he, List.filter_append, filter_isStoreCall_invalidationLog]
      simp [he, Event.isStoreCall]
    · exact ⟨pre, _, by rw [runLog_parse c m w h he, hpre], hpre1, hpre2⟩

theorem parseCode_storage (c : Collaborators PS AS FM St) (m : ℚ) (w : World PS AS FM St)
    (h : c.getSourcePaths w.projectSettings ≠ []) :
    (parseCode c m w).project.m_storage =
      if (workList c w).length = 0 then invalidatedStorage c w else parsedStorage c w := by
  rw [parseCode_eq]
  by_cases he : workList c w = []
  · simp [h, he]
  · simp [h, he]

/-- C8: in a run with at least one source path the calls on the storage are,
in this order, `getDependingFilePathsAndRemoveFileNodes(updated)`,
`getDependingFilePathsAndRemoveFileNodes(removed)`,
`clearFileData(expanded updated)`, `clearFileData(removed)`, then
`parseFiles` when the work list is not empty, then `getErrorCount()`: a
`parseFiles` call comes after both `clearFileData` calls.  The calls are
chained on the storage: the second expansion works on the storage the first
left, the first `clearFileData` on the storage the second expansion left and
on the updated files with the dependents both expansions returned, the second
`clearFileData` on the result; the parser is handed the storage both
`clearFileData` calls left, and the storage the `Project` ends with, on
which the reported error count is read, is that storage (empty work list)
or the one the parser made of it. -/
theorem invalidation_precedes_parsing (c : Collaborators PS AS FM St) (m : ℚ)
    (w : World PS AS FM St) (h : c.getSourcePaths w.projectSettings ≠ []) :
    ((runLog c m w).filter Event.isStoreCall =
      [Event.getDependingFilePathsAndRemoveFileNodes (updatedSet c w),
        Event.getDependingFilePathsAndRemoveFileNodes (removedSet c w),
        Event.clearFileData (expandedUpdated c w), Event.clearFileData (removedSet c w)] ++
      (if (workList c w).length = 0 then [Event.getErrorCount]
        else [Event.parseFiles (workList c w) (assembledArguments c w), Event.getErrorCount]) ∧
    ∃ pre post, runLog c m w = pre ++
      [Event.getDependingFilePathsAndRemoveFileNodes (updatedSet c w),
        Event.getDependingFilePathsAndRemoveFileNodes (removedSet c w),
        Event.clearFileData (expandedUpdated c w), Event.clearFileData (removedSet c w)] ++ post ∧
      pre.filter Event.isStoreCall = [] ∧ parsed pre = []) ∧
    (parseCode c m w).project.m_storage =
      (if (workList c w).length = 0 then
        c.clearFileData
          (c.clearFileData
            (c.getDependingFilePathsAndRemoveFileNodes
              (c.getDependingFilePathsAndRemoveFileNodes w.project.m_storage (updatedSet c w)).2
              (removedSet c w)).2
            (expandedUpdated c w))
          (removedSet c w)
      else
        (c.parseFiles
          (c.clearFileData
            (c.clearFileData
              (c.getDependingFilePathsAndRemoveFileNodes
                (c.getDependingFilePathsAndRemoveFileNodes w.project.m_storage (updatedSet c w)).2
                (removedSet c w)).2
              (expandedUpdated c w))
            (removedSet c w))
          (c.fetchFilePaths (fileManagerInUse c w)) (workList c w) (assembledArguments c w)).1) ∧
    (∀ x, x ∈ (expandedUpdated c w).elems ↔
      x ∈ (updatedSet c w).elems ∨
      x ∈ (c.getDependingFilePathsAndRemoveFileNodes w.project.m_storage
        (updatedSet c w)).1.elems ∨
      x ∈ (c.getDependingFilePathsAndRemoveFileNodes
        (c.getDependingFilePathsAndRemoveFileNodes w.project.m_storage (updatedSet c w)).2
        (removedSet c w)).1.elems) ∧
    ∃ n d, dispatched (runLog c m w) =
      [⟨n, d, c.getErrorCount (parseCode c m w).project.m_storage⟩] := by
  refine ⟨storeCalls_in_order c m w h, parseCode_storage c m w h,
    fun x => expandedUpdated_mem c w x, ?_⟩
  rw [parseCode_storage c m w h]
  by_cases he : workList c w = []
  · refine ⟨0, 0, ?_⟩
    rw [runLog_empty c m w h he, dispatched_append, dispatched_invalidationLog]
    simp [he, dispatched]
  · refine ⟨(workList c w).length, m, ?_⟩
    rw [runLog_parse c m w h he, dispatched_append, dispatched_invalidationLog]
    simp [he, dispatched]

/-- Witness of C8: `a.cpp` added, `c.cpp` updated, the storage records that
`c.cpp` depends on `z.h` and counts 3 errors.  The storage calls of the run
in order, and the storage the run ends with: the record of `c.cpp` cleared
before the parser added its 2 errors. -/
theorem invalidation_precedes_parsing_witness :
    (simpleCollaborators scanS4 true 2).getSourcePaths worldInvalidate.projectSettings ≠ [] ∧
      worldInvalidate.project.m_storage = ⟨[("c.cpp", "z.h")], 3⟩ ∧
      (runLog (simpleCollaborators scanS4 true 2) (1 / 2) worldInvalidate).filter
          Event.isStoreCall =
        [Event.getDependingFilePathsAndRemoveFileNodes (FileSet.ofList ["c.cpp"]),
          Event.getDependingFilePathsAndRemoveFileNodes (FileSet.ofList []),
          Event.clearFileData (FileSet.ofList ["c.cpp"]),
          Event.clearFileData (FileSet.ofList []),
          Event.parseFiles ["a.cpp", "c.cpp"] ⟨["A", "B"], ["src", "inc", "sys"], ["fw", "appfw"]⟩,
          Event.getErrorCount] ∧
      (parseCode (simpleCollaborators scanS4 true 2) (1 / 2) worldInvalidate).project.m_storage =
        ⟨[], 5⟩ :=
  ⟨by decide, rfl,
    (invalidation_precedes_parsing (simpleCollaborators scanS4 true 2) (1 / 2) worldInvalidate
      (by decide)).1.1,
    (invalidation_precedes_parsing (simpleCollaborators scanS4 true 2) (1 / 2) worldInvalidate
      (by decide)).2.1⟩

/-- C9, as stated, fails: the scan reports `c.cpp` added and `a.cpp` updated
(disjoint, nothing removed), the storage returns `c.cpp` as a dependent of
`a.cpp`; the work list handed to `parseFiles` is `[c.cpp, a.cpp, c.cpp]`. -/
theorem workList_with_duplicate :
    (∀ x ∈ (addedSet (simpleCollaborators scanOverlap true 0) worldOverlap).elems,
        x ∉ (updatedSet (simpleCollaborators scanOverlap true 0) worldOverlap).elems) ∧
      (removedSet (simpleCollaborators scanOverlap true 0) worldOverlap).elems = [] ∧
      parsed (parseCode (simpleCollaborators scanOverlap true 0) 0 worldOverlap).trace =
        [(["c.cpp", "a.cpp", "c.cpp"], ⟨["A", "B"], ["src", "inc", "sys"], ["fw", "appfw"]⟩)] ∧
      ¬ (["c.cpp", "a.cpp", "c.cpp"] : List FilePath).Nodup := by
  decide

/-- C9 (amended): a work list handed to `parseFiles` contains no file path
more than once whenever no added file is in the expanded updated set (the
updated files and the dependents returned by both expansion calls). -/
theorem workList_nodup (c : Collaborators PS AS FM St) (m : ℚ) (w : World PS AS FM St)
    (fs : List FilePath) (args : Arguments) (hp : (fs, args) ∈ parsed (runLog c m w))
    (hd : ∀ x ∈ (addedSet c w).elems, x ∉ (expandedUpdated c w).elems) : fs.Nodup := by
  obtain ⟨_, _, hfs, _⟩ := parsed_runLog_mem c m w fs args hp
  subst hfs
  unfold workList
  exact List.nodup_append.2 ⟨(addedSet c w).nodup, (expandedUpdated c w).nodup,
    fun x hx hy => hd x hx hy⟩

/-- Witness of C9 (amended) on scenario S4. -/
theorem workList_nodup_witness :
    ((["a.cpp", "c.cpp"], (⟨["A", "B"], ["src", "inc", "sys"], ["fw", "appfw"]⟩ : Arguments)) ∈
        parsed (runLog (simpleCollaborators scanS4 true 2) (1 / 2) worldS4)) ∧
      (∀ x ∈ (addedSet (simpleCollaborators scanS4 true 2) worldS4).elems,
        x ∉ (expandedUpdated (simpleCollaborators scanS4 true 2) worldS4).elems) ∧
      (["a.cpp", "c.cpp"] : List FilePath).Nodup :=
  ⟨by decide, by decide,
    workList_nodup (simpleCollaborators scanS4 true 2) (1 / 2) worldS4 ["a.cpp", "c.cpp"]
      ⟨["A", "B"], ["src", "inc", "sys"], ["fw", "appfw"]⟩ (by decide) (by decide)⟩

/-- The function `loadProjectSettings` records the path only when the load succeeded. -/
theorem loadProjectSettings_failure_keeps_path (c : Collaborators PS AS FM St) (file : String)
    (w : World PS AS FM St) (hf : (loadProjectSettings c file w).1 = false) :
    (loadProjectSettings c file w).2.project.m_projectSettingsFilepath =
      w.project.m_projectSettingsFilepath := by
  unfold loadProjectSettings at hf ⊢
  by_cases hs : (c.load w.projectSettings file).1 = true
  · simp [hs] at hf
  · simp [hs]

/-- The function `saveProjectSettings` returns false only when it has changed nothing. -/
theorem saveProjectSettings_failure_keeps_path (c : Collaborators PS AS FM St) (file : String)
    (w : World PS AS FM St) (hf : (saveProjectSettings c file w).1 = false) :
    (saveProjectSettings c file w).2 = w := by
  unfold saveProjectSettings at hf ⊢
  split
  · rename_i h1; simp [h1] at hf
  · split
    · rename_i h1 h2; simp [h1, h2] at hf
    · rfl

/-- The function `setSourceDirectoryPath` records the derived settings path whatever
`setSourcePaths` returns. -/
theorem setSourceDirectoryPath_records_path (c : Collaborators PS AS FM St) (dir : String)
    (w : World PS AS FM St) :
    (setSourceDirectoryPath c dir w).2.project.m_projectSettingsFilepath =
        dir ++ "/ProjectSettings.xml" ∧
      (setSourceDirectoryPath c dir w).1 = (c.setSourcePaths w.projectSettings [dir]).1 := by
  simp [setSourceDirectoryPath]

/-- C7 at the failing input: `setSourceDirectoryPath("other")` on a project
whose recorded path is `old/ProjectSettings.xml`, with a settings object
whose `setSourcePaths` fails, returns false and has replaced the recorded
path by `other/ProjectSettings.xml`; `loadProjectSettings("other.xml")`,
failing in the same state, leaves the path as it was. -/
theorem setSourceDirectoryPath_failure_changes_path :
    (setSourceDirectoryPath (simpleCollaborators scanUnchanged false 0) "other" worldS4).1 = false ∧
      worldS4.project.m_projectSettingsFilepath = "old/ProjectSettings.xml" ∧
      (setSourceDirectoryPath (simpleCollaborators scanUnchanged false 0) "other"
        worldS4).2.project.m_projectSettingsFilepath = "other/ProjectSettings.xml" ∧
      (loadProjectSettings (simpleCollaborators scanUnchanged false 0) "other.xml" worldS4).1
        = false ∧
      (loadProjectSettings (simpleCollaborators scanUnchanged false 0) "other.xml"
        worldS4).2.project.m_projectSettingsFilepath = "old/ProjectSettings.xml" := by
  decide

theorem parseCode_fileManager_isSome (c : Collaborators PS AS FM St) (m : ℚ)
    (w : World PS AS FM St) (h : c.getSourcePaths w.projectSettings ≠ []) :
    ∃ fm, (parseCode c m w).project.m_fileManager = some fm := by
  rw [parseCode_eq]
  by_cases he : workList c w = []
  · exact ⟨_, by simp [h, he]; rfl⟩
  · exact ⟨_, by simp [h, he]; rfl⟩

theorem runLog_of_some (c : Collaborators PS AS FM St) (m : ℚ) (w : World PS AS FM St) (fm : FM)
    (hfm : w.project.m_fileManager = some fm) :
    constructions (runLog c m w) = [] ∧
      (∃ fm2, (parseCode c m w).project.m_fileManager = some fm2) ∧
      (c.getSourcePaths w.projectSettings ≠ [] →
        ∃ rest, runLog c m w = Event.fetchFilePaths fm :: rest) := by
  by_cases h : c.getSourcePaths w.projectSettings = []
  · refine ⟨by simp [runLog_no_sources c m w h, constructions], ?_, fun h2 => absurd h h2⟩
    rw [parseCode_no_sources c m w h]
    exact ⟨fm, hfm⟩
  · have hi : invalidationLog c w =
        [Event.fetchFilePaths fm, Event.getAddedFilePaths,
          Event.getUpdatedFilePaths, Event.getRemovedFilePaths,
          Event.getDependingFilePathsAndRemoveFileNodes (updatedSet c w),
          Event.getDependingFilePathsAndRemoveFileNodes (removedSet c w),
          Event.clearFileData (expandedUpdated c w), Event.clearFileData (removedSet c w)] := by
      simp [invalidationLog, fileManagerInUse, hfm]
    refine ⟨?_, parseCode_fileManager_isSome c m w h, fun _ => ?_⟩
    · by_cases he : workList c w = []
      · rw [runLog_empty c m w h he, hi]; simp [constructions]
      · rw [runLog_parse c m w h he, hi]; simp [constructions]
    · by_cases he : workList c w = []
      · rw [runLog_empty c m w h he, hi]; exact ⟨_, rfl⟩
      · rw [runLog_parse c m w h he, hi]; exact ⟨_, rfl⟩

theorem runLog_of_none (c : Collaborators PS AS FM St) (m : ℚ) (w : World PS AS FM St)
    (hfm : w.project.m_fileManager = none) (h : c.getSourcePaths w.projectSettings ≠ []) :
    ∃ rest, constructions rest = [] ∧ runLog c m w =
      Event.fileManagerConstructed (c.getSourcePaths w.projectSettings)
          (c.getSourcePaths w.projectSettings) [".cpp", ".cc"] [".h", ".hpp"] ::
        Event.fetchFilePaths (c.newFileManager (c.getSourcePaths w.projectSettings)
          (c.getSourcePaths w.projectSettings) [".cpp", ".cc"] [".h", ".hpp"]) :: rest := by
  have hi : invalidationLog c w =
      [Event.fileManagerConstructed (c.getSourcePaths w.projectSettings)
          (c.getSourcePaths w.projectSettings) [".cpp", ".cc"] [".h", ".hpp"],
        Event.fetchFilePaths (c.newFileManager (c.getSourcePaths w.projectSettings)
          (c.getSourcePaths w.projectSettings) [".cpp", ".cc"] [".h", ".hpp"]),
        Event.getAddedFilePaths, Event.getUpdatedFilePaths, Event.getRemovedFilePaths,
        Event.getDependingFilePathsAndRemoveFileNodes (updatedSet c w),
        Event.getDependingFilePathsAndRemoveFileNodes (removedSet c w),
        Event.clearFileData (expandedUpdated c w), Event.clearFileData (removedSet c w)] := by
    simp [invalidationLog, fileManagerInUse, hfm]
  by_cases he : workList c w = []
  · rw [runLog_empty c m w h he, hi]
    exact ⟨_, by simp [constructions], rfl⟩
  · rw [runLog_parse c m w h he, hi]
    exact ⟨_, by simp [constructions], rfl⟩

theorem exec_keeps_fileManager (c : Collaborators PS AS FM St) (k : Call)
    (w : World PS AS FM St) (fm : FM) (hfm : w.project.m_fileManager = some fm) :
    (∃ fm2, (k.exec c w).project.m_fileManager = some fm2) ∧
      constructions (k.exec c w).trace = constructions w.trace := by
  cases k with
  | loadProjectSettings f =>
    simp only [Call.exec, loadProjectSettings]
    split <;> exact ⟨⟨fm, hfm⟩, rfl⟩
  | saveProjectSettings f =>
    simp only [Call.exec, saveProjectSettings]
    split
    · exact ⟨⟨fm, hfm⟩, rfl⟩
    · split <;> exact ⟨⟨fm, hfm⟩, rfl⟩
  | clearProjectSettings => exact ⟨⟨fm, hfm⟩, rfl⟩
  | setSourceDirectoryPath d => exact ⟨⟨fm, hfm⟩, rfl⟩
  | clearStorage =>
    refine ⟨⟨fm, hfm⟩, ?_⟩
    simp [Call.exec, clearStorage, constructions_append, constructions]
  | parseCode m =>
    obtain ⟨h1, h2, _⟩ := runLog_of_some c m w fm hfm
    refine ⟨h2, ?_⟩
    simp only [Call.exec]
    rw [trace_eq, constructions_append, h1, List.append_nil]

theorem runCalls_keeps_fileManager (calls : List (Collaborators PS AS FM St × Call))
    (w : World PS AS FM St) (fm : FM) (hfm : w.project.m_fileManager = some fm) :
    (∃ fm2, (runCalls calls w).project.m_fileManager = some fm2) ∧
      constructions (runCalls calls w).trace = constructions w.trace := by
  induction calls generalizing w fm with
  | nil => exact ⟨⟨fm, hfm⟩, rfl⟩
  | cons ck rest ih =>
    obtain ⟨c, k⟩ := ck
    obtain ⟨⟨fm2, h2⟩, h3⟩ := exec_keeps_fileManager c k w fm hfm
    obtain ⟨h4, h5⟩ := ih (k.exec c w) fm2 h2
    exact ⟨h4, by simp only [runCalls]; rw [h5, h3]⟩

theorem parseCode_fileManager_of_some (c : Collaborators PS AS FM St) (m : ℚ)
    (w : World PS AS FM St) (fm : FM) (hfm : w.project.m_fileManager = some fm) :
    (parseCode c m w).project.m_fileManager = some (fileManagerAfterRun c w fm) := by
  have hf : fetched c w = c.fetchFilePaths fm := by simp [fetched, fileManagerInUse, hfm]
  rw [parseCode_eq]
  unfold fileManagerAfterRun
  by_cases h : c.getSourcePaths w.projectSettings = []
  · simp [h, hfm]
  · by_cases he : workList c w = []
    · simp [h, he, hf]
    · simp [h, he, hf]

theorem parseCode_fileManager_of_none (c : Collaborators PS AS FM St) (m : ℚ)
    (w : World PS AS FM St) (hfm : w.project.m_fileManager = none)
    (h : c.getSourcePaths w.projectSettings ≠ []) :
    (parseCode c m w).project.m_fileManager =
      some (fileManagerAfterRun c w (c.newFileManager (c.getSourcePaths w.projectSettings)
        (c.getSourcePaths w.projectSettings) [".cpp", ".cc"] [".h", ".hpp"])) := by
  have hf : fetched c w = c.fetchFilePaths (c.newFileManager (c.getSourcePaths w.projectSettings)
      (c.getSourcePaths w.projectSettings) [".cpp", ".cc"] [".h", ".hpp"]) := by
    simp [fetched, fileManagerInUse, hfm]
  rw [parseCode_eq]
  unfold fileManagerAfterRun
  by_cases he : workList c w = []
  · simp [h, he, hf]
  · simp [h, he, hf]

theorem exec_fileManager (c : Collaborators PS AS FM St) (k : Call)
    (w : World PS AS FM St) (fm : FM) (hfm : w.project.m_fileManager = some fm) :
    (k.exec c w).project.m_fileManager = some (k.onFileManager c w fm) := by
  cases k with
  | loadProjectSettings f =>
    simp only [Call.exec, Call.onFileManager, loadProjectSettings]
    split <;> exact hfm
  | saveProjectSettings f =>
    simp only [Call.exec, Call.onFileManager, saveProjectSettings]
    split
    · exact hfm
    · split <;> exact hfm
  | clearProjectSettings => exact hfm
  | setSourceDirectoryPath d => exact hfm
  | clearStorage => exact hfm
  | parseCode m => exact parseCode_fileManager_of_some c m w fm hfm

theorem runCalls_fileManager (calls : List (Collaborators PS AS FM St × Call))
    (w : World PS AS FM St) (fm : FM) (hfm : w.project.m_fileManager = some fm) :
    (runCalls calls w).project.m_fileManager = some (instanceAfter calls w fm) := by
  induction calls generalizing w fm with
  | nil => exact hfm
  | cons ck rest ih =>
    obtain ⟨c, k⟩ := ck
    exact ih (k.exec c w) (k.onFileManager c w fm) (exec_fileManager c k w fm hfm)

theorem parseCode_constructor_irrelevant (c : Collaborators PS AS FM St) (m : ℚ)
    (w : World PS AS FM St) (fm : FM) (hfm : w.project.m_fileManager = some fm)
    (g : List String → List String → List String → List String → FM) :
    parseCode { c with newFileManager := g } m w = parseCode c m w := by
  unfold parseCode
  simp only [hfm]

/-- C10: on a `Project` without a file manager, the first `parseCode` with
at least one source path constructs the file manager from (source paths, the
same source paths, `[.cpp, .cc]`, `[.h, .hpp]`), fetches on it and leaves that
instance in the `Project`.  After any further calls on the `Project`
(settings changes included) the `Project` holds that same instance, changed
only by the `fetchFilePaths()` and parser calls of the runs in between; a
later `parseCode` constructs nothing (its result does not depend on the
constructor), fetches on the held instance and leaves it in the `Project`;
the log still shows the single, original construction. -/
theorem fileManager_constructed_once (c₁ c₂ : Collaborators PS AS FM St) (m₁ m₂ : ℚ)
    (calls : List (Collaborators PS AS FM St × Call)) (w : World PS AS FM St)
    (h0 : w.project.m_fileManager = none) (h1 : c₁.getSourcePaths w.projectSettings ≠ []) :
    ((∃ rest, constructions rest = [] ∧ runLog c₁ m₁ w =
      Event.fileManagerConstructed (c₁.getSourcePaths w.projectSettings)
          (c₁.getSourcePaths w.projectSettings) [".cpp", ".cc"] [".h", ".hpp"] ::
        Event.fetchFilePaths (c₁.newFileManager (c₁.getSourcePaths w.projectSettings)
          (c₁.getSourcePaths w.projectSettings) [".cpp", ".cc"] [".h", ".hpp"]) :: rest) ∧
    (∃ fm, (runCalls calls (parseCode c₁ m₁ w)).project.m_fileManager = some fm ∧
      constructions (runLog c₂ m₂ (runCalls calls (parseCode c₁ m₁ w))) = [] ∧
      (c₂.getSourcePaths (runCalls calls (parseCode c₁ m₁ w)).projectSettings ≠ [] →
        ∃ rest, runLog c₂ m₂ (runCalls calls (parseCode c₁ m₁ w)) =
          Event.fetchFilePaths fm :: rest)) ∧
    constructions (parseCode c₂ m₂ (runCalls calls (parseCode c₁ m₁ w))).trace =
      constructions w.trace ++
        [(c₁.getSourcePaths w.projectSettings, c₁.getSourcePaths w.projectSettings,
          [".cpp", ".cc"], [".h", ".hpp"])]) ∧
    (parseCode c₁ m₁ w).project.m_fileManager =
      some (fileManagerAfterRun c₁ w (c₁.newFileManager (c₁.getSourcePaths w.projectSettings)
        (c₁.getSourcePaths w.projectSettings) [".cpp", ".cc"] [".h", ".hpp"])) ∧
    (runCalls calls (parseCode c₁ m₁ w)).project.m_fileManager =
      some (instanceAfter calls (parseCode c₁ m₁ w)
        (fileManagerAfterRun c₁ w (c₁.newFileManager (c₁.getSourcePaths w.projectSettings)
          (c₁.getSourcePaths w.projectSettings) [".cpp", ".cc"] [".h", ".hpp"]))) ∧
    (c₂.getSourcePaths (runCalls calls (parseCode c₁ m₁ w)).projectSettings ≠ [] →
      ∃ rest, runLog c₂ m₂ (runCalls calls (parseCode c₁ m₁ w)) =
        Event.fetchFilePaths (instanceAfter calls (parseCode c₁ m₁ w)
          (fileManagerAfterRun c₁ w (c₁.newFileManager (c₁.getSourcePaths w.projectSettings)
            (c₁.getSourcePaths w.projectSettings) [".cpp", ".cc"] [".h", ".hpp"]))) :: rest) ∧
    (parseCode c₂ m₂ (runCalls calls (parseCode c₁ m₁ w))).project.m_fileManager =
      some (fileManagerAfterRun c₂ (runCalls calls (parseCode c₁ m₁ w))
        (instanceAfter calls (parseCode c₁ m₁ w)
          (fileManagerAfterRun c₁ w (c₁.newFileManager (c₁.getSourcePaths w.projectSettings)
            (c₁.getSourcePaths w.projectSettings) [".cpp", ".cc"] [".h", ".hpp"])))) ∧
    ∀ g : List String → List String → List String → List String → FM,
      parseCode { c₂ with newFileManager := g } m₂ (runCalls calls (parseCode c₁ m₁ w)) =
        parseCode c₂ m₂ (runCalls calls (parseCode c₁ m₁ w)) := by
  obtain ⟨rest, hr1, hr2⟩ := runLog_of_none c₁ m₁ w h0 h1
  have hfm1 := parseCode_fileManager_of_none c₁ m₁ w h0 h1
  have hfm2 := runCalls_fileManager calls (parseCode c₁ m₁ w) _ hfm1
  obtain ⟨_, hc2⟩ := runCalls_keeps_fileManager calls (parseCode c₁ m₁ w) _ hfm1
  obtain ⟨h3, _, h5⟩ := runLog_of_some c₂ m₂ (runCalls calls (parseCode c₁ m₁ w)) _ hfm2
  refine ⟨⟨⟨rest, hr1, hr2⟩, ⟨_, hfm2, h3, h5⟩, ?_⟩, hfm1, hfm2, h5,
    parseCode_fileManager_of_some c₂ m₂ _ _ hfm2,
    fun g => parseCode_constructor_irrelevant c₂ m₂ _ _ hfm2 g⟩
  rw [trace_eq, constructions_append, h3, List.append_nil, hc2, trace_eq, constructions_append,
    hr2]
  simp [constructions, hr1]

/-- Witness of C10: first run on source root `src` (the instance is
constructed empty, and the scan and the parser leave it in the state of the
scan of S4); then the source directory is set to `other`; the second run
fetches on that instance, constructs nothing, and the log shows the single
construction from `src`. -/
theorem fileManager_constructed_once_witness :
    worldS4.project.m_fileManager = none ∧
      (simpleCollaborators scanS4 true 2).getSourcePaths worldS4.projectSettings = ["src"] ∧
      (simpleCollaborators scanUnchanged true 0).getSourcePaths
        (runCalls [(simpleCollaborators scanUnchanged true 0, Call.setSourceDirectoryPath "other")]
          (parseCode (simpleCollaborators scanS4 true 2) (1 / 2) worldS4)).projectSettings
        = ["other"] ∧
      constructions (parseCode (simpleCollaborators scanUnchanged true 0) 0
        (runCalls [(simpleCollaborators scanUnchanged true 0, Call.setSourceDirectoryPath "other")]
          (parseCode (simpleCollaborators scanS4 true 2) (1 / 2) worldS4))).trace =
        [(["src"], ["src"], [".cpp", ".cc"], [".h", ".hpp"])] ∧
      (runCalls [(simpleCollaborators scanUnchanged true 0, Call.setSourceDirectoryPath "other")]
        (parseCode (simpleCollaborators scanS4 true 2) (1 / 2) worldS4)).project.m_fileManager =
        some scanS4 ∧
      ∃ rest, runLog (simpleCollaborators scanUnchanged true 0) 0
        (runCalls [(simpleCollaborators scanUnchanged true 0, Call.setSourceDirectoryPath "other")]
          (parseCode (simpleCollaborators scanS4 true 2) (1 / 2) worldS4)) =
        Event.fetchFilePaths scanS4 :: rest :=
  ⟨rfl, by decide, by decide,
    (fileManager_constructed_once (simpleCollaborators scanS4 true 2)
      (simpleCollaborators scanUnchanged true 0) (1 / 2) 0
      [(simpleCollaborators scanUnchanged true 0, Call.setSourceDirectoryPath "other")]
      worldS4 rfl (by decide)).1.2.2,
    (fileManager_constructed_once (simpleCollaborators scanS4 true 2)
      (simpleCollaborators scanUnchanged true 0) (1 / 2) 0
      [(simpleCollaborators scanUnchanged true 0, Call.setSourceDirectoryPath "other")]
      worldS4 rfl (by decide)).2.2.1,
    (fileManager_constructed_once (simpleCollaborators scanS4 true 2)
      (simpleCollaborators scanUnchanged true 0) (1 / 2) 0
      [(simpleCollaborators scanUnchanged true 0, Call.setSourceDirectoryPath "other")]
      worldS4 rfl (by decide)).2.2.2.1 (by decide)⟩

end Sourcetrail
